import Mathlib

/-!
Verification of the Screen Clock Engine of the sc2-coop-overlay repository
(src/overlay/screen_clock.py), shallowly embedded in Lean.
Modelling conventions:
monotonic wall-clock values (time.perf_counter readings) become rationals,
Python ints become integers, byte buffers become functions from the flat
byte index to the byte value, and external effects (screen capture, the
WinRT OCR engine) become explicit inputs of the functions that consume
them.  Source line numbers in the comments refer to screen_clock.py.
-/

/-- Decimal digit character, as produced by Python decimal int formatting. -/
def digitChar (n : ℕ) : Char :=
  if n = 0 then '0' else if n = 1 then '1' else if n = 2 then '2'
  else if n = 3 then '3' else if n = 4 then '4' else if n = 5 then '5'
  else if n = 6 then '6' else if n = 7 then '7' else if n = 8 then '8'
  else '9'

/-- Fuel-indexed decimal expansion; any fuel larger than the number suffices. -/
def natDigitsAux : ℕ → ℕ → List Char
  | 0, _ => []
  | fuel + 1, n =>
    if n < 10 then [digitChar n]
    else natDigitsAux fuel (n / 10) ++ [digitChar (n % 10)]

/-- Decimal digits of a natural number, most significant first (Python str(n)). -/
def natDigits (n : ℕ) : List Char := natDigitsAux (n + 1) n

/-- Python format spec 02d applied to a natural number: zero-pad to width 2. -/
def pad2List (n : ℕ) : List Char :=
  if n < 10 then '0' :: natDigits n else natDigits n

/-- Formatting of the shown seconds in screen_clock.py lines 412 and 437:
zero-padded shown / 60, a colon, zero-padded shown % 60. -/
def fmtMMSS (n : ℕ) : String :=
  String.mk (pad2List (n / 60) ++ ':' :: pad2List (n % 60))

/-- The ten decimal digit characters. -/
def decimalChars : List Char :=
  ['0', '1', '2', '3', '4', '5', '6', '7', '8', '9']

/-- Python int() applied to a real value: truncation toward zero
(screen_clock.py lines 403, 416, 423). -/
def pyInt (q : ℚ) : ℤ := if 0 ≤ q then ⌊q⌋ else ⌈q⌉

/-- Python max(-M, min(M, delta)) from screen_clock.py line 429. -/
def clampCorr (M delta : ℤ) : ℤ := max (-M) (min M delta)

/-- Tuning parameters of the ScreenClock dataclass (screen_clock.py
lines 286-298), with the dataclass defaults as default field values. -/
structure ClockCfg where
  game_speed_multiplier : ℚ := 7 / 5
  time_offset_s : ℤ := 1
  poll_hz : ℚ := 10
  dropout_grace_s : ℚ := 10
  holdover_s : ℚ := 600
  max_correction_per_tick_s : ℤ := 1
  engine_reset_after_fail_s : ℚ := 20
deriving DecidableEq

/-- The dataclass defaults of ScreenClock. -/
def defaultClockCfg : ClockCfg := {}

/-- The shared state read and written by display_time: the last observation
(_last_observed_s, _last_observed_wall_mono) and the display state
(_disp_s, _disp_next_tick_mono), screen_clock.py lines 305-310. -/
structure ClockState where
  last_observed_s : Option ℤ
  last_observed_wall_mono : ℚ
  disp_s : Option ℤ
  disp_next_tick_mono : ℚ
deriving DecidableEq

/-- The freshly constructed state: no observation, no display value
(dataclass defaults, screen_clock.py lines 305-310). -/
def initClockState : ClockState := ⟨none, 0, none, 0⟩

/-- The worker's observation update, screen_clock.py lines 544-546. -/
def observeUpdate (st : ClockState) (t : ℤ) (wall : ℚ) : ClockState :=
  { st with last_observed_s := some t, last_observed_wall_mono := wall }

/-- Whole-tick catch-up applied to the display value, the block duplicated at
screen_clock.py lines 402-405 and 422-425: if the current time has reached the
pending tick deadline, advance by the elapsed whole tick periods plus one. -/
def tickCatchUp (tp : ℚ) (d : ℤ) (next now : ℚ) : ℤ × ℚ :=
  if next ≤ now then
    let steps : ℤ := ⌊(now - next) / tp⌋ + 1
    (d + steps, next + steps * tp)
  else (d, next)

/-- The value/format pair returned on the numeric paths of display_time
(screen_clock.py lines 411-412 and 436-437): offset, clamp at zero, format. -/
def showResult (cfg : ClockCfg) (d : ℤ) : Option ℤ × String :=
  let shown := max 0 (d + cfg.time_offset_s)
  (some shown, fmtMMSS shown.toNat)

/-- Fresh-regime update of the display value when a display value already
exists (screen_clock.py lines 421-430): whole-tick catch-up, then a
correction toward the estimate clamped to max_correction_per_tick_s,
skipped when the difference is zero.  Returns the new display value and
the new tick deadline; the estimate is passed in by the caller. -/
def freshUpdate (cfg : ClockCfg) (tp : ℚ) (est d : ℤ) (next now : ℚ) : ℤ × ℚ :=
  let c := tickCatchUp tp d next now
  let delta := est - c.1
  (if delta ≠ 0 then c.1 + clampCorr cfg.max_correction_per_tick_s delta else c.1, c.2)

/-- Holdover-regime result (screen_clock.py lines 396-412): tick the display
value forward with no correction, store it, and show it. -/
def holdoverResult (cfg : ClockCfg) (st : ClockState) (tp : ℚ) (d : ℤ)
    (now : ℚ) : (Option ℤ × String) × ClockState :=
  let c := tickCatchUp tp d st.disp_next_tick_mono now
  (showResult cfg c.1,
   { st with disp_s := some c.1, disp_next_tick_mono := c.2 })

/-- ScreenClock.display_time (screen_clock.py lines 380-437).  The Python
None checks on _last_observed_s and _disp_s become a match on the option
pair; obs_age is 999999.0 when no observation exists (line 393).  The
branch in which Python would fail its assert at line 415 (no observation,
yet an observation age within the dropout grace, only possible when
dropout_grace_s is at least 999999) returns a distinguished marker, since
the Python call raises there instead of returning. -/
def displayTime (cfg : ClockCfg) (st : ClockState) (now : ℚ) :
    (Option ℤ × String) × ClockState :=
  let tp : ℚ := 1 / max (1 / 100) cfg.game_speed_multiplier
  match st.last_observed_s, st.disp_s with
  | none, none => ((none, "--:--"), st)
  | none, some d =>
    if cfg.dropout_grace_s < (999999 : ℚ) then
      if cfg.dropout_grace_s + cfg.holdover_s < (999999 : ℚ) then
        ((none, "--:--"), st)
      else holdoverResult cfg st tp d now
    else ((none, "raise AssertionError"), st)
  | some s, none =>
    if cfg.dropout_grace_s < now - st.last_observed_wall_mono then
      ((none, "--:--"), st)
    else
      let est := s + pyInt ((now - st.last_observed_wall_mono) * cfg.game_speed_multiplier)
      (showResult cfg est,
       { st with disp_s := some est, disp_next_tick_mono := now + tp })
  | some s, some d =>
    if cfg.dropout_grace_s < now - st.last_observed_wall_mono then
      if cfg.dropout_grace_s + cfg.holdover_s < now - st.last_observed_wall_mono then
        ((none, "--:--"), st)
      else holdoverResult cfg st tp d now
    else
      let est := s + pyInt ((now - st.last_observed_wall_mono) * cfg.game_speed_multiplier)
      let u := freshUpdate cfg tp est d st.disp_next_tick_mono now
      (showResult cfg u.1,
       { st with disp_s := some u.1, disp_next_tick_mono := u.2 })

/-- ASCII whitespace matched by the regex class backslash-s after the
newline replacement at screen_clock.py line 485. -/
def isSpaceCh (c : Char) : Bool :=
  c = ' ' || c = '\t' || c = '\n' || c = '\r' || c = '\x0b' || c = '\x0c'

/-- ASCII decimal digit test for the regex class backslash-d. -/
def isDigitCh (c : Char) : Bool := '0' ≤ c && c ≤ '9'

/-- Numeric value of a digit character. -/
def digVal (c : Char) : ℕ := c.toNat - 48

/-- Maximal-munch whitespace skip for a backslash-s-star regex element
followed by a non-whitespace element. -/
def dropSpaces : List Char → List Char
  | [] => []
  | c :: r => if isSpaceCh c then dropSpaces r else c :: r

/-- Match the regex tail colon-with-optional-spaces then exactly two digits
(the separator and seconds group of _MMSS_RE, screen_clock.py line 265). -/
def matchSepTail : List Char → Option ℕ
  | [] => none
  | c :: rest =>
    if c = ':' then
      match dropSpaces rest with
      | d3 :: d4 :: _ =>
        if isDigitCh d3 && isDigitCh d4 then some (digVal d3 * 10 + digVal d4) else none
      | _ => none
    else none

/-- Same element, applied after the leading whitespace skip. -/
def matchSep (s : List Char) : Option ℕ := matchSepTail (dropSpaces s)

/-- Match _MMSS_RE at the start of the list: one or two digits (greedy, with
backtracking from two digits to one), optional spaces, a colon, optional
spaces, exactly two digits.  Returns (minutes, seconds). -/
def matchFrom : List Char → Option (ℕ × ℕ)
  | [] => none
  | d1 :: rest =>
    if isDigitCh d1 then
      match rest with
      | d2 :: rest2 =>
        if isDigitCh d2 then
          match matchSep rest2 with
          | some ss => some (digVal d1 * 10 + digVal d2, ss)
          | none =>
            match matchSep rest with
            | some ss => some (digVal d1, ss)
            | none => none
        else
          match matchSep rest with
          | some ss => some (digVal d1, ss)
          | none => none
      | [] => none
    else none

/-- re.search semantics: try each start position from the left. -/
def searchMMSS : List Char → Option (ℕ × ℕ)
  | [] => none
  | c :: rest =>
    match matchFrom (c :: rest) with
    | some r => some r
    | none => searchMMSS rest

/-- The parse step of _ocr_once_locked (screen_clock.py lines 485-493):
replace newlines by spaces, search for the MM:SS pattern, reject
out-of-range minutes or seconds, and convert to seconds. -/
def mmssParse (text : String) : Option ℤ :=
  let t := text.data.map (fun c => if c = '\n' then ' ' else c)
  match searchMMSS t with
  | none => none
  | some (mm, ss) => if ss ≤ 59 ∧ mm ≤ 99 then some ((mm : ℤ) * 60 + ss) else none

/-- ScreenClock._score_candidate (screen_clock.py lines 495-504). -/
def scoreCandidate (parsed_s : ℤ) (text : String) (last_s : Option ℤ) : ℤ :=
  let score : ℤ := 10000
  let score := score + (match last_s with
    | some l => max 0 (2000 - |parsed_s - l| * 50)
    | none => 0)
  let score := score + (if text ≠ "" then 200 else 0)
  score + (if ':' ∈ text.data then 50 else 0)

/-- A preprocessing variant (scale, lum_threshold, g_min, dilate_iters),
screen_clock.py line 277. -/
def PVariant := ℕ × ℕ × ℕ × ℕ
deriving DecidableEq

/-- Accumulator of the candidate loop of _read_seconds_once_best
(screen_clock.py lines 562-565): best_score, best_parsed, best_text,
best_variant. -/
structure BestAcc where
  score : ℤ
  parsed : Option ℤ
  text : String
  variant : Option PVariant
deriving DecidableEq

/-- Initial accumulator: best_score -1, nothing parsed, empty text. -/
def initBestAcc : BestAcc := ⟨-1, none, "", none⟩

/-- The candidate loop of _read_seconds_once_best (screen_clock.py lines
575-591) over the stream of per-variant OCR texts, with the early exit at
score 11800.  The final String is the value the per-call writes of
_ocr_once_locked (line 483) leave in _last_ocr_text: the text of the last
variant processed before the loop ended. -/
def selLoop (last_s : Option ℤ) :
    List (PVariant × String) → BestAcc → String → BestAcc × String
  | [], acc, lt => (acc, lt)
  | (v, text) :: rest, acc, _ =>
    match mmssParse text with
    | none =>
      selLoop last_s rest { acc with text := if text = "" then acc.text else text } text
    | some p =>
      let sc := scoreCandidate p text last_s
      let acc' := if sc > acc.score then ⟨sc, some p, text, some v⟩ else acc
      if acc'.score ≥ 11800 then (acc', text) else selLoop last_s rest acc' text

/-- Exhaustive variant of the candidate loop, following the specification
text that the early exit is claimed to be equivalent to: identical scoring
and best tracking, but never stopping early. -/
def selLoopFull (last_s : Option ℤ) :
    List (PVariant × String) → BestAcc → BestAcc
  | [], acc => acc
  | (v, text) :: rest, acc =>
    match mmssParse text with
    | none =>
      selLoopFull last_s rest { acc with text := if text = "" then acc.text else text }
    | some p =>
      let sc := scoreCandidate p text last_s
      let acc' := if sc > acc.score then ⟨sc, some p, text, some v⟩ else acc
      selLoopFull last_s rest acc'

/-- ScreenClock._read_seconds_once_best (screen_clock.py lines 555-597)
after capture and crop, as a function of the last observed seconds, the
per-variant OCR texts, and the incoming _last_ocr_text.  Returns
(best_parsed, best_variant, final _last_ocr_text); lines 593-595 restore
best_text into _last_ocr_text only when it is non-empty. -/
def readSecondsOnceBest (last_s : Option ℤ) (results : List (PVariant × String))
    (lt0 : String) : Option ℤ × Option PVariant × String :=
  let r := selLoop last_s results initBestAcc lt0
  (r.1.parsed, r.1.variant, if r.1.text = "" then r.2 else r.1.text)

/-- The worker-side shared state (screen_clock.py lines 305-315): the
observation, the raw recognized text, the preferred variant, and the
health timestamp.  The engine handle replacement of _reset_engine_locked
(lines 506-510) is observed through a reset counter. -/
structure WorkerState where
  last_observed_s : Option ℤ
  last_observed_wall_mono : ℚ
  last_ocr_text : String
  preferred_variant : Option PVariant
  last_parse_ok_mono : ℚ
  engine_resets : ℕ
deriving DecidableEq

/-- The externally determined outcome of one poll cycle body.  A raised
constructor stands for an exception anywhere in capture, crop, or the
variant loop (screen_clock.py line 529); okTexts are the texts of the
_ocr_once_locked calls that completed before the exception, each of which
already stored its text (line 483).  A completed constructor carries the
OCR text produced for each preprocessing variant, in search order. -/
inductive CycleOutcome where
  | raised (okTexts : List String)
  | completed (results : List (PVariant × String))
deriving DecidableEq

/-- The failure recovery of the worker (screen_clock.py lines 530-534 and
538-541): if no successful parse happened for longer than
engine_reset_after_fail_s, rebuild the OCR engine and restart the window. -/
def healthCheck (cfg : ClockCfg) (ws : WorkerState) (now : ℚ) : WorkerState :=
  if cfg.engine_reset_after_fail_s < now - ws.last_parse_ok_mono then
    { ws with engine_resets := ws.engine_resets + 1, last_parse_ok_mono := now }
  else ws

/-- One iteration of the worker loop body after the wake-up check
(screen_clock.py lines 527-550).  now is the now_m read at line 521;
obsWall is the time.perf_counter() read at line 546 on success. -/
def workerCycle (cfg : ClockCfg) (ws : WorkerState) (now obsWall : ℚ)
    (io : CycleOutcome) : WorkerState :=
  match io with
  | .raised okTexts =>
    let ws1 := { ws with last_ocr_text := okTexts.getLast?.getD ws.last_ocr_text }
    healthCheck cfg ws1 now
  | .completed results =>
    let r := readSecondsOnceBest ws.last_observed_s results ws.last_ocr_text
    let ws1 := { ws with last_ocr_text := r.2.2 }
    match r.1 with
    | none => healthCheck cfg ws1 now
    | some t =>
      { ws1 with
        last_observed_s := some t
        last_observed_wall_mono := obsWall
        last_parse_ok_mono := now
        preferred_variant :=
          match r.2.1 with
          | some v => some v
          | none => ws.preferred_variant }

/-- The parsed result a cycle outcome yields against the current state;
none is the failure case (exception, or no confident parse). -/
def cycleParsed (ws : WorkerState) (io : CycleOutcome) : Option ℤ :=
  match io with
  | .raised _ => none
  | .completed results => (readSecondsOnceBest ws.last_observed_s results ws.last_ocr_text).1

/-- A run of failing cycles, each raising before any OCR text (for example
repeated capture failures), at the given cycle start times. -/
def runFailRaise (cfg : ClockCfg) (ws : WorkerState) : List ℚ → WorkerState
  | [] => ws
  | t :: ts => runFailRaise cfg (workerCycle cfg ws t 0 (.raised [])) ts

/-- Luminance of a BGRA pixel, (54 r + 183 g + 19 b) / 256 with integer
division (screen_clock.py lines 151 and 207). -/
def pixelLum (b g r : ℕ) : ℕ := (54 * r + 183 * g + 19 * b) / 256

/-- Glyph-colored pixel classifier of the auto-crop (screen_clock.py
line 152): luminance at least 35, green at least 40, green dominant. -/
def glyphQualifies (b g r : ℕ) : Bool :=
  35 ≤ pixelLum b g r && 40 ≤ g && r ≤ g && b ≤ g

/-- The bounding-box scan of _auto_crop_to_glyph_band (screen_clock.py
lines 138-160): fold over pixels in row-major order, starting from
(x_min, y_min, x_max, y_max) = (w, h, -1, -1). -/
def cropBounds (buf : ℕ → ℕ) (w h : ℕ) : ℤ × ℤ × ℤ × ℤ :=
  (List.range h).foldl
    (fun acc y =>
      (List.range w).foldl
        (fun acc x =>
          let idx := (y * w + x) * 4
          if glyphQualifies (buf idx) (buf (idx + 1)) (buf (idx + 2)) then
            (min acc.1 x, min acc.2.1 y, max acc.2.2.1 x, max acc.2.2.2 y)
          else acc)
        acc)
    ((w : ℤ), (h : ℤ), -1, -1)

/-- The row-copy of the crop (screen_clock.py lines 178-182), as the
function from the flat output byte index to the source byte. -/
def cropCopy (buf : ℕ → ℕ) (w x0 y0 cw : ℕ) : ℕ → ℕ :=
  fun j => buf (((y0 + (j / 4) / cw) * w + x0 + (j / 4) % cw) * 4 + j % 4)

/-- Padded box left edge, max(0, x_min - PAD_X) with PAD_X = 3
(screen_clock.py lines 165-167). -/
def cropX0 (bb : ℤ × ℤ × ℤ × ℤ) : ℤ := max 0 (bb.1 - 3)

/-- Padded box top edge, max(0, y_min - PAD_Y) with PAD_Y = 2. -/
def cropY0 (bb : ℤ × ℤ × ℤ × ℤ) : ℤ := max 0 (bb.2.1 - 2)

/-- Padded box right edge, min(w - 1, x_max + PAD_X). -/
def cropX1 (bb : ℤ × ℤ × ℤ × ℤ) (w : ℕ) : ℤ := min ((w : ℤ) - 1) (bb.2.2.1 + 3)

/-- Padded box bottom edge, min(h - 1, y_max + PAD_Y). -/
def cropY1 (bb : ℤ × ℤ × ℤ × ℤ) (h : ℕ) : ℤ := min ((h : ℤ) - 1) (bb.2.2.2 + 2)

/-- Padded box width cw = (x1 - x0) + 1 (screen_clock.py line 172). -/
def cropW (bb : ℤ × ℤ × ℤ × ℤ) (w : ℕ) : ℤ := cropX1 bb w - cropX0 bb + 1

/-- Padded box height ch = (y1 - y0) + 1 (screen_clock.py line 173). -/
def cropH (bb : ℤ × ℤ × ℤ × ℤ) (h : ℕ) : ℤ := cropY1 bb h - cropY0 bb + 1

/-- _auto_crop_to_glyph_band (screen_clock.py lines 135-184): returns the
cropped buffer, its dimensions, and the crop rectangle; the original
buffer with the full rectangle when no pixel qualifies or the padded box
is below the 20 by 10 floor. -/
def autoCropToGlyphBand (buf : ℕ → ℕ) (w h : ℕ) :
    (ℕ → ℕ) × ℕ × ℕ × (ℕ × ℕ × ℕ × ℕ) :=
  let bb := cropBounds buf w h
  if bb.2.2.1 < 0 ∨ bb.2.2.2 < 0 then (buf, w, h, (0, 0, w, h))
  else if cropW bb w < 20 ∨ cropH bb h < 10 then (buf, w, h, (0, 0, w, h))
  else
    (cropCopy buf w (cropX0 bb).toNat (cropY0 bb).toNat (cropW bb w).toNat,
     (cropW bb w).toNat, (cropH bb h).toNat,
     ((cropX0 bb).toNat, (cropY0 bb).toNat, (cropW bb w).toNat, (cropH bb h).toNat))

/-- Digit pixel classifier of _preprocess_clock_bgra (screen_clock.py
lines 202-209), applied at mask index p of a w-wide BGRA buffer. -/
def digitMask (buf : ℕ → ℕ) (lumTh gMin : ℕ) : ℕ → ℕ := fun p =>
  let b := buf (4 * p)
  let g := buf (4 * p + 1)
  let r := buf (4 * p + 2)
  if lumTh ≤ pixelLum b g r ∧ gMin ≤ g ∧ r ≤ g ∧ b ≤ g then 1 else 0

/-- One round of 3x3 binary dilation (_dilate_mask inner loops,
screen_clock.py lines 113-131): a mask cell becomes on when any neighbour
in the clamped 3x3 window is on. -/
def dilateOnce (m : ℕ → ℕ) (w h : ℕ) : ℕ → ℕ := fun p =>
  let y := p / w
  let x := p % w
  let y1 := min (h - 1) (y + 1)
  let x1 := min (w - 1) (x + 1)
  let ys := List.range' (y - 1) (y1 + 1 - (y - 1))
  let xs := List.range' (x - 1) (x1 + 1 - (x - 1))
  if ys.any (fun yy => xs.any (fun xx => m (yy * w + xx) != 0)) then 1 else 0

/-- _dilate_mask iterated (screen_clock.py lines 109-132): zero iterations
return the mask unchanged. -/
def dilateMask (m : ℕ → ℕ) (w h : ℕ) : ℕ → (ℕ → ℕ)
  | 0 => m
  | n + 1 => dilateOnce (dilateMask m w h n) w h

/-- The black/white BGRA rendering of the mask (screen_clock.py lines
215-222): digit pixels black, others white, alpha 255. -/
def monoImage (mask : ℕ → ℕ) : ℕ → ℕ := fun j =>
  if j % 4 = 3 then 255 else if mask (j / 4) ≠ 0 then 0 else 255

/-- The nearest-neighbour upscale loop (screen_clock.py lines 227-245) as a
function of the flat output byte index: color channels take the channel-0
value of the source pixel, alpha is 255. -/
def upscaleImage (mono : ℕ → ℕ) (w scale : ℕ) : ℕ → ℕ := fun j =>
  let c := j % 4
  let pi := j / 4
  let px := pi % (w * scale)
  let py := pi / (w * scale)
  if c = 3 then 255 else mono ((py / scale * w + px / scale) * 4)

/-- _preprocess_clock_bgra (screen_clock.py lines 187-247): none models the
ValueError raised for scale below 1; otherwise mask, optional dilation,
mono rendering, and for scale above 1 the nearest-neighbour upscale. -/
def preprocessClockBgra (buf : ℕ → ℕ) (w h scale lumTh gMin dilateIters : ℕ) :
    Option ((ℕ → ℕ) × ℕ × ℕ) :=
  if scale < 1 then none
  else
    let mask := dilateMask (digitMask buf lumTh gMin) w h dilateIters
    let mono := monoImage mask
    if scale = 1 then some (mono, w, h)
    else some (upscaleImage mono w scale, w * scale, h * scale)

/-- The residual of one bounded correction step with the default maximum of
1: what is left of a display-to-estimate gap after n correcting calls. -/
def shrinkGap : ℕ → ℤ → ℤ
  | 0, g => g
  | n + 1, g => shrinkGap n g - clampCorr 1 (shrinkGap n g)

/-- k successive calls to display_time, one tick period (one second at
speed 1) apart, starting at time t. -/
def callsFrom (cfg : ClockCfg) : ℕ → ClockState → ℚ → ClockState
  | 0, st, _ => st
  | k + 1, st, t => callsFrom cfg k (displayTime cfg st t).2 (t + 1)

theorem digitChar_mem (n : ℕ) : digitChar n ∈ decimalChars := by
  unfold digitChar
  split_ifs <;> decide

theorem natDigitsAux_mem :
    ∀ fuel n c, c ∈ natDigitsAux fuel n → c ∈ decimalChars := by
  intro fuel
  induction fuel with
  | zero => intro n c hc; simp [natDigitsAux] at hc
  | succ f ih =>
    intro n c hc
    unfold natDigitsAux at hc
    split at hc
    · rcases List.mem_singleton.mp hc with rfl
      exact digitChar_mem n
    · rcases List.mem_append.mp hc with h1 | h2
      · exact ih _ _ h1
      · rcases List.mem_singleton.mp h2 with rfl
        exact digitChar_mem _

theorem natDigits_mem {n : ℕ} {c : Char} (hc : c ∈ natDigits n) :
    c ∈ decimalChars := natDigitsAux_mem _ _ _ hc

theorem natDigits_ne_nil (n : ℕ) : natDigits n ≠ [] := by
  unfold natDigits natDigitsAux
  split
  · simp
  · simp

/-- The head of a zero-padded number is always a decimal digit. -/
theorem pad2List_head (n : ℕ) :
    ∃ c cs, pad2List n = c :: cs ∧ c ∈ decimalChars := by
  unfold pad2List
  split
  · exact ⟨'0', natDigits n, rfl, by decide⟩
  · rcases h : natDigits n with _ | ⟨c, cs⟩
    · exact absurd h (natDigits_ne_nil n)
    · refine ⟨c, cs, rfl, ?_⟩
      exact natDigits_mem (by rw [h]; exact List.mem_cons_self _ _)

/-- A formatted clock value is never the blank marker string. -/
theorem fmtMMSS_ne_blank (n : ℕ) : fmtMMSS n ≠ "--:--" := by
  intro h
  have hdata : pad2List (n / 60) ++ ':' :: pad2List (n % 60) = ['-', '-', ':', '-', '-'] :=
    congrArg String.data h
  rcases pad2List_head (n / 60) with ⟨c, cs, hcons, hmem⟩
  rw [hcons] at hdata
  simp only [List.cons_append] at hdata
  injection hdata with h1 h2
  subst h1
  exact absurd hmem (by decide)

theorem displayTime_init_blank :
    (displayTime defaultClockCfg initClockState 5).1 = (none, "--:--") := rfl

theorem displayTime_first_observation :
    (displayTime defaultClockCfg (observeUpdate initClockState 90 0) 0).1.1 = some 91 := by
  norm_num [displayTime, observeUpdate, initClockState, defaultClockCfg, showResult, pyInt]

theorem fmtMMSS_eval : fmtMMSS 91 = "01:31" := by decide

/-- Sanity checks of the regex embedding against re.search behaviour on
concrete texts, including greedy backtracking and out-of-range rejects. -/
theorem mmssParse_eval :
    mmssParse "01:38" = some 98 ∧
    mmssParse " 1:49 " = some 109 ∧
    mmssParse "123:45" = some (23 * 60 + 45) ∧
    mmssParse "no colon" = none ∧
    mmssParse "1:234" = some 83 ∧
    mmssParse "9:99" = none := by
  refine ⟨by decide, by decide, by decide, by decide, by decide, by decide⟩

theorem list_foldl_fixed {α β : Type _} (f : β → α → β) (l : List α) (b : β)
    (hf : ∀ b' x, x ∈ l → f b' x = b') : l.foldl f b = b := by
  induction l generalizing b with
  | nil => rfl
  | cons a t ih =>
    rw [List.foldl_cons, hf b a (List.mem_cons_self a t)]
    exact ih b (fun b' x hx => hf b' x (List.mem_cons_of_mem a hx))

/-- If no pixel qualifies, the bounding-box scan returns its initial
accumulator (w, h, -1, -1). -/
theorem cropBounds_of_no_glyph (buf : ℕ → ℕ) (w h : ℕ)
    (hq : ∀ y, y < h → ∀ x, x < w →
      glyphQualifies (buf ((y * w + x) * 4)) (buf ((y * w + x) * 4 + 1))
        (buf ((y * w + x) * 4 + 2)) = false) :
    cropBounds buf w h = ((w : ℤ), (h : ℤ), -1, -1) := by
  unfold cropBounds
  apply list_foldl_fixed
  intro acc y hy
  apply list_foldl_fixed
  intro acc' x hx
  simp [hq y (List.mem_range.mp hy) x (List.mem_range.mp hx)]

/-- C8: if no pixel satisfies the glyph-color classifier, or the padded
bounding box is below the 20 by 10 floor, _auto_crop_to_glyph_band returns
the input buffer unchanged with unchanged dimensions, and the reported
crop rectangle is the full source rectangle (0, 0, w, h). -/
theorem C8_autoCrop_fallback_identity (buf : ℕ → ℕ) (w h : ℕ)
    (hcase :
      (∀ y, y < h → ∀ x, x < w →
        glyphQualifies (buf ((y * w + x) * 4)) (buf ((y * w + x) * 4 + 1))
          (buf ((y * w + x) * 4 + 2)) = false)
      ∨ (0 ≤ (cropBounds buf w h).2.2.1 ∧ 0 ≤ (cropBounds buf w h).2.2.2 ∧
         (cropW (cropBounds buf w h) w < 20 ∨ cropH (cropBounds buf w h) h < 10))) :
    autoCropToGlyphBand buf w h = (buf, w, h, (0, 0, w, h)) := by
  rcases hcase with hnone | ⟨hx, hy, hfloor⟩
  · unfold autoCropToGlyphBand
    rw [cropBounds_of_no_glyph buf w h hnone]
    norm_num
  · unfold autoCropToGlyphBand
    rw [if_neg (by push_neg; constructor <;> omega), if_pos hfloor]

/-- Witness for C8 at a concrete all-black 2 by 2 buffer. -/
theorem C8_witness :
    autoCropToGlyphBand (fun _ => 0) 2 2 = ((fun _ => 0), 2, 2, (0, 0, 2, 2)) :=
  C8_autoCrop_fallback_identity (fun _ => 0) 2 2 (Or.inl (by decide))

/-- Index arithmetic for the upscale loop: a block-interior output byte maps
back to the channel-0 byte of its source pixel (alpha excepted). -/
theorem upscaleImage_block (mono : ℕ → ℕ) (w scale x y xx yy c : ℕ)
    (hx : x < w) (hxx : xx < scale) (hyy : yy < scale) (hc : c < 4) :
    upscaleImage mono w scale (((y * scale + yy) * (w * scale) + (x * scale + xx)) * 4 + c)
      = (if c = 3 then 255 else mono ((y * w + x) * 4)) := by
  have hs : 0 < scale := Nat.pos_of_ne_zero (by rintro rfl; exact Nat.not_lt_zero _ hxx)
  have hws : 0 < w * scale := Nat.mul_pos (lt_of_le_of_lt (Nat.zero_le x) hx) hs
  have hr : x * scale + xx < w * scale := by
    calc x * scale + xx < x * scale + scale := by omega
    _ = (x + 1) * scale := by ring
    _ ≤ w * scale := Nat.mul_le_mul_right _ hx
  have hrw : (y * scale + yy) * (w * scale) + (x * scale + xx)
      = (x * scale + xx) + (w * scale) * (y * scale + yy) := by ring
  have hmod4 : (((y * scale + yy) * (w * scale) + (x * scale + xx)) * 4 + c) % 4 = c := by
    omega
  have hdiv4 : (((y * scale + yy) * (w * scale) + (x * scale + xx)) * 4 + c) / 4
      = (y * scale + yy) * (w * scale) + (x * scale + xx) := by omega
  have hPx : ((y * scale + yy) * (w * scale) + (x * scale + xx)) % (w * scale)
      = x * scale + xx := by
    rw [hrw, Nat.add_mul_mod_self_left, Nat.mod_eq_of_lt hr]
  have hPy : ((y * scale + yy) * (w * scale) + (x * scale + xx)) / (w * scale)
      = y * scale + yy := by
    rw [hrw, Nat.add_mul_div_left _ _ hws, Nat.div_eq_of_lt hr, Nat.zero_add]
  have hxs : (x * scale + xx) / scale = x := by
    rw [show x * scale + xx = xx + scale * x by ring, Nat.add_mul_div_left _ _ hs,
      Nat.div_eq_of_lt hxx, Nat.zero_add]
  have hys : (y * scale + yy) / scale = y := by
    rw [show y * scale + yy = yy + scale * y by ring, Nat.add_mul_div_left _ _ hs,
      Nat.div_eq_of_lt hyy, Nat.zero_add]
  unfold upscaleImage
  simp only [hmod4, hdiv4, hPx, hPy, hxs, hys]

/-- The mono rendering has equal color channels, so byte channel c of pixel
p equals byte channel 0 for color channels and 255 for alpha. -/
theorem monoImage_channel (mask : ℕ → ℕ) (p c : ℕ) (hc : c < 4) :
    monoImage mask (p * 4 + c) = if c = 3 then 255 else monoImage mask (p * 4) := by
  unfold monoImage
  have h1 : (p * 4 + c) % 4 = c := by omega
  have h2 : (p * 4 + c) / 4 = p := by omega
  have h3 : (p * 4) % 4 = 0 := by omega
  have h4 : (p * 4) / 4 = p := by omega
  rw [h1, h2, h3, h4]
  by_cases hc3 : c = 3 <;> simp [hc3]

/-- C9: for a scale of at least 1 the preprocessing yields dimensions
exactly (w scale, h scale), and every output byte inside the scale-by-scale
block of a source pixel equals the corresponding byte of the mono rendering
of that source pixel. -/
theorem C9_preprocess_dims_replication (buf : ℕ → ℕ) (w h scale lumTh gMin di : ℕ)
    (hs : 1 ≤ scale) :
    ∃ out,
      preprocessClockBgra buf w h scale lumTh gMin di = some (out, w * scale, h * scale) ∧
      ∀ x, x < w → ∀ y, y < h → ∀ xx, xx < scale → ∀ yy, yy < scale → ∀ c, c < 4 →
        out (((y * scale + yy) * (w * scale) + (x * scale + xx)) * 4 + c)
          = monoImage (dilateMask (digitMask buf lumTh gMin) w h di) ((y * w + x) * 4 + c) := by
  have hs0 : ¬ scale < 1 := by omega
  by_cases h1 : scale = 1
  · subst h1
    refine ⟨monoImage (dilateMask (digitMask buf lumTh gMin) w h di), ?_, ?_⟩
    · unfold preprocessClockBgra
      rw [if_neg hs0, if_pos rfl, mul_one, mul_one]
    · intro x hx y hy xx hxx yy hyy c hc
      have hxx0 : xx = 0 := by omega
      have hyy0 : yy = 0 := by omega
      subst hxx0; subst hyy0
      norm_num
  · refine ⟨upscaleImage (monoImage (dilateMask (digitMask buf lumTh gMin) w h di)) w scale,
      ?_, ?_⟩
    · unfold preprocessClockBgra
      rw [if_neg hs0, if_neg h1]
    · intro x hx y hy xx hxx yy hyy c hc
      rw [upscaleImage_block _ _ _ _ _ _ _ _ hx hxx hyy hc, monoImage_channel _ _ _ hc]

/-- Witness for C9 at a concrete 1 by 1 buffer and scale 2. -/
theorem C9_witness :
    ∃ out,
      preprocessClockBgra (fun _ => 0) 1 1 2 70 80 0 = some (out, 1 * 2, 1 * 2) ∧
      ∀ x, x < 1 → ∀ y, y < 1 → ∀ xx, xx < 2 → ∀ yy, yy < 2 → ∀ c, c < 4 →
        out (((y * 2 + yy) * (1 * 2) + (x * 2 + xx)) * 4 + c)
          = monoImage (dilateMask (digitMask (fun _ => 0) 70 80) 1 1 0) ((y * 1 + x) * 4 + c) :=
  C9_preprocess_dims_replication (fun _ => 0) 1 1 2 70 80 0 (by decide)

theorem dropSpaces_suffix : ∀ l : List Char, dropSpaces l <:+ l := by
  intro l
  induction l with
  | nil => exact List.suffix_refl _
  | cons c r ih =>
    unfold dropSpaces
    split
    · exact ih.trans (List.suffix_cons c r)
    · exact List.suffix_refl _

theorem matchSep_colon {s : List Char} {ss : ℕ} (h : matchSep s = some ss) :
    ':' ∈ s := by
  unfold matchSep at h
  rcases hds : dropSpaces s with _ | ⟨c, rest⟩ <;> rw [hds] at h
  · exact absurd h (by simp [matchSepTail])
  · simp only [matchSepTail] at h
    split_ifs at h with hc
    subst hc
    exact (dropSpaces_suffix s).subset (by rw [hds]; exact List.mem_cons_self _ _)

theorem matchFrom_colon : ∀ {l : List Char} {r : ℕ × ℕ}, matchFrom l = some r → ':' ∈ l := by
  intro l r h
  rcases l with _ | ⟨d1, rest⟩
  · exact absurd h (by simp [matchFrom])
  · rcases rest with _ | ⟨d2, rest2⟩
    · exact absurd h (by simp [matchFrom, ite_self])
    · simp only [matchFrom] at h
      split_ifs at h with h1 h2
      · rcases hm2 : matchSep rest2 with _ | ss2
        · simp only [hm2] at h
          rcases hm1 : matchSep (d2 :: rest2) with _ | ss1
          · simp only [hm1] at h
            exact absurd h (by simp)
          · exact List.mem_cons_of_mem _ (matchSep_colon hm1)
        · exact List.mem_cons_of_mem _ (List.mem_cons_of_mem _ (matchSep_colon hm2))
      · rcases hm1 : matchSep (d2 :: rest2) with _ | ss1
        · simp only [hm1] at h
          exact absurd h (by simp)
        · exact List.mem_cons_of_mem _ (matchSep_colon hm1)

theorem searchMMSS_colon : ∀ {l : List Char} {r : ℕ × ℕ}, searchMMSS l = some r → ':' ∈ l := by
  intro l
  induction l with
  | nil => intro r h; exact absurd h (by simp [searchMMSS])
  | cons c rest ih =>
    intro r h
    unfold searchMMSS at h
    rcases hm : matchFrom (c :: rest) with _ | r0 <;> rw [hm] at h
    · exact List.mem_cons_of_mem _ (ih h)
    · exact matchFrom_colon hm

/-- A successful MM:SS parse forces the raw text to be non-empty and to
contain the separator character, so every scored candidate collects both
flat text bonuses of _score_candidate. -/
theorem mmssParse_colon {text : String} {p : ℤ} (h : mmssParse text = some p) :
    ':' ∈ text.data ∧ text ≠ "" := by
  unfold mmssParse at h
  rcases hs : searchMMSS (text.data.map (fun c => if c = '\n' then ' ' else c))
    with _ | ⟨mm, ss⟩
  · simp only [hs] at h
    exact absurd h (by simp)
  · have hmem := searchMMSS_colon hs
    rcases List.mem_map.mp hmem with ⟨c, hcmem, hceq⟩
    have hc : c = ':' := by
      by_cases hn : c = '\n'
      · rw [if_pos hn] at hceq; exact absurd hceq (by decide)
      · rwa [if_neg hn] at hceq
    subst hc
    refine ⟨hcmem, ?_⟩
    intro he
    rw [he] at hcmem
    exact absurd hcmem (by decide)

/-- C5: with a last observation of 100 seconds, the candidate
(98, "01:38") outscores the candidate (150, "no colon") in
_score_candidate, and the candidate loop selects 98 in either order:
the continuity bonus plus the non-empty-text and separator bonuses
dominate. -/
theorem C5_continuity_dominates :
    scoreCandidate 98 "01:38" (some 100) = 12150 ∧
    scoreCandidate 150 "no colon" (some 100) = 10200 ∧
    scoreCandidate 150 "no colon" (some 100) < scoreCandidate 98 "01:38" (some 100) ∧
    (selLoop (some 100) [((8, 70, 80, 0), "01:38"), ((6, 60, 60, 1), "no colon")]
      initBestAcc "").1.parsed = some 98 ∧
    (selLoop (some 100) [((6, 60, 60, 1), "no colon"), ((8, 70, 80, 0), "01:38")]
      initBestAcc "").1.parsed = some 98 := by
  refine ⟨by decide, by decide, by decide, by decide, by decide⟩

/-- C4 counterexample: with last observation 100, the OCR text "1:49"
(parsed 109, jump 9) scores exactly the early-exit threshold 11800, so the
search stops and returns 109, while a later variant reading "1:40"
(parsed 100, jump 0) scores 12250; the exhaustive search returns 100, a
different result, refuting the claimed equality of early-exit and full
search. -/
theorem C4_counterexample :
    (selLoop (some 100) [((8, 70, 80, 0), "1:49"), ((6, 60, 60, 1), "1:40")]
      initBestAcc "").1.parsed = some 109 ∧
    (selLoopFull (some 100) [((8, 70, 80, 0), "1:49"), ((6, 60, 60, 1), "1:40")]
      initBestAcc).parsed = some 100 ∧
    11800 ≤ scoreCandidate 109 "1:49" (some 100) ∧
    scoreCandidate 109 "1:49" (some 100) < scoreCandidate 100 "1:40" (some 100) ∧
    (some (109 : ℤ) : Option ℤ) ≠ some 100 := by
  refine ⟨by decide, by decide, by decide, by decide, by decide⟩

/-- Processing further candidates never lowers the tracked best score. -/
theorem selLoopFull_score_le (last_s : Option ℤ) :
    ∀ (cands : List (PVariant × String)) (acc : BestAcc),
      acc.score ≤ (selLoopFull last_s cands acc).score := by
  intro cands
  induction cands with
  | nil => intro acc; exact le_refl _
  | cons cand rest ih =>
    intro acc
    rcases cand with ⟨v, text⟩
    simp only [selLoopFull]
    rcases hp : mmssParse text with _ | p
    · exact ih _
    · refine le_trans ?_ (ih _)
      split_ifs with hgt
      · exact le_of_lt hgt
      · exact le_refl _

/-- The early-exit search never reports a higher best score than the
exhaustive search from the same starting accumulator. -/
theorem selLoop_le_selLoopFull (last_s : Option ℤ) :
    ∀ (cands : List (PVariant × String)) (acc : BestAcc) (lt : String),
      (selLoop last_s cands acc lt).1.score ≤ (selLoopFull last_s cands acc).score := by
  intro cands
  induction cands with
  | nil => intro acc lt; exact le_refl _
  | cons cand rest ih =>
    intro acc lt
    rcases cand with ⟨v, text⟩
    simp only [selLoop, selLoopFull]
    rcases hp : mmssParse text with _ | p
    · exact ih _ _
    · dsimp only
      split <;> split <;>
        first
        | exact selLoopFull_score_le last_s rest _
        | exact ih _ _

/-- C4 (amended): the early exit is a bounded heuristic rather than exact.
Scores never exceed 12250, so a later candidate can outscore the 11800
threshold; reaching the threshold forces a last observation with the
parsed value within 9 seconds of it (every scored candidate carries both
text bonuses); without a last observation no candidate reaches the
threshold; and the early-exit search never reports a higher best score
than the exhaustive search. -/
theorem C4_early_exit_characterization :
    (∀ (p : ℤ) (text : String) (last_s : Option ℤ), scoreCandidate p text last_s ≤ 12250) ∧
    (∀ (text : String) (p l : ℤ), mmssParse text = some p →
      (11800 ≤ scoreCandidate p text (some l) ↔ |p - l| ≤ 9)) ∧
    (∀ (text : String) (p : ℤ), mmssParse text = some p →
      scoreCandidate p text none < 11800) ∧
    (∀ (last_s : Option ℤ) (cands : List (PVariant × String)) (acc : BestAcc) (lt : String),
      (selLoop last_s cands acc lt).1.score ≤ (selLoopFull last_s cands acc).score) := by
  refine ⟨?_, ?_, ?_, fun last_s cands acc lt => selLoop_le_selLoopFull last_s cands acc lt⟩
  · intro p text last_s
    unfold scoreCandidate
    rcases last_s with _ | l
    · dsimp only
      split_ifs <;> norm_num
    · dsimp only
      have hA : 0 ≤ |p - l| := abs_nonneg _
      have h50 : 0 ≤ |p - l| * 50 := by positivity
      have hmax : max 0 (2000 - |p - l| * 50) ≤ 2000 := max_le (by norm_num) (by linarith)
      split_ifs <;> linarith
  · intro text p l hparse
    obtain ⟨hcolon, hne⟩ := mmssParse_colon hparse
    unfold scoreCandidate
    dsimp only
    rw [if_pos hne, if_pos hcolon]
    constructor
    · intro hsc
      by_contra hA9
      push_neg at hA9
      have h10 : (10 : ℤ) ≤ |p - l| := hA9
      have h500 : (500 : ℤ) ≤ |p - l| * 50 := by linarith
      have hmax : max 0 (2000 - |p - l| * 50) ≤ 1500 := max_le (by norm_num) (by linarith)
      linarith
    · intro hA
      have h450 : |p - l| * 50 ≤ 450 := by linarith
      have h1550 : (1550 : ℤ) ≤ max 0 (2000 - |p - l| * 50) :=
        le_trans (by linarith) (le_max_right _ _)
      linarith
  · intro text p hparse
    obtain ⟨hcolon, hne⟩ := mmssParse_colon hparse
    unfold scoreCandidate
    dsimp only
    rw [if_pos hne, if_pos hcolon]
    norm_num

/-- Witness for C4 (amended) at the concrete candidate "1:49" against a
last observation of 100. -/
theorem C4_witness :
    mmssParse "1:49" = some 109 ∧
    (11800 ≤ scoreCandidate 109 "1:49" (some 100) ↔ |(109 : ℤ) - 100| ≤ 9) ∧
    scoreCandidate 109 "1:49" none < 11800 :=
  ⟨by decide, C4_early_exit_characterization.2.1 "1:49" 109 100 (by decide),
   C4_early_exit_characterization.2.2.1 "1:49" 109 (by decide)⟩

/-- C6 counterexample: a completed cycle with an unparseable non-empty OCR
text is a failure (no confident parse), yet it overwrites the shared
recognized text _last_ocr_text, so the Observation field recognized_text
is not left untouched. -/
theorem C6_counterexample :
    cycleParsed ⟨some 42, 0, "", none, 0, 0⟩ (.completed [((8, 70, 80, 0), "zz")]) = none ∧
    (workerCycle defaultClockCfg ⟨some 42, 0, "", none, 0, 0⟩ 1 1
      (.completed [((8, 70, 80, 0), "zz")])).last_ocr_text = "zz" ∧
    (⟨some 42, 0, "", none, 0, 0⟩ : WorkerState).last_ocr_text ≠ "zz" := by
  have hr : readSecondsOnceBest (some 42) [((8, 70, 80, 0), "zz")] "" = (none, none, "zz") := by
    decide
  refine ⟨?_, ?_, by decide⟩
  · unfold cycleParsed
    dsimp only
    rw [hr]
  · unfold workerCycle
    dsimp only
    simp only [hr]
    unfold healthCheck
    split_ifs <;> rfl

/-- C6 (amended): a failed poll cycle (exception, or no confident parse)
leaves the parsed seconds, the observed-at timestamp and the preferred
variant unchanged, so the estimator keeps extrapolating from the previous
observation; the recognized-text diagnostic may still be overwritten by
the OCR texts seen during the failed cycle. -/
theorem C6_failure_preserves_observation (cfg : ClockCfg) (ws : WorkerState)
    (now obsWall : ℚ) (io : CycleOutcome) (hfail : cycleParsed ws io = none) :
    (workerCycle cfg ws now obsWall io).last_observed_s = ws.last_observed_s ∧
    (workerCycle cfg ws now obsWall io).last_observed_wall_mono = ws.last_observed_wall_mono ∧
    (workerCycle cfg ws now obsWall io).preferred_variant = ws.preferred_variant := by
  rcases io with okTexts | results
  · unfold workerCycle healthCheck
    dsimp only
    split_ifs <;> exact ⟨rfl, rfl, rfl⟩
  · unfold cycleParsed at hfail
    dsimp only at hfail
    unfold workerCycle healthCheck
    dsimp only
    simp only [hfail]
    split_ifs <;> exact ⟨rfl, rfl, rfl⟩

/-- Witness for C6 (amended) at a concrete raised cycle. -/
theorem C6_witness :
    (workerCycle defaultClockCfg ⟨some 42, 0, "", none, 0, 0⟩ 1 1
      (.raised [])).last_observed_s = (⟨some 42, 0, "", none, 0, 0⟩ : WorkerState).last_observed_s ∧
    (workerCycle defaultClockCfg ⟨some 42, 0, "", none, 0, 0⟩ 1 1
      (.raised [])).last_observed_wall_mono
      = (⟨some 42, 0, "", none, 0, 0⟩ : WorkerState).last_observed_wall_mono ∧
    (workerCycle defaultClockCfg ⟨some 42, 0, "", none, 0, 0⟩ 1 1
      (.raised [])).preferred_variant
      = (⟨some 42, 0, "", none, 0, 0⟩ : WorkerState).preferred_variant :=
  C6_failure_preserves_observation defaultClockCfg _ 1 1 _ (by decide)

/-- Within the reset window no failing cycle performs a reset, so the
whole run is a no-op on the worker state. -/
theorem runFailRaise_within_window (cfg : ClockCfg) :
    ∀ (times : List ℚ) (ws : WorkerState),
      (∀ t ∈ times, t ≤ ws.last_parse_ok_mono + cfg.engine_reset_after_fail_s) →
      runFailRaise cfg ws times = ws := by
  intro times
  induction times with
  | nil => intro ws _; rfl
  | cons t ts ih =>
    intro ws hall
    have hstep : workerCycle cfg ws t 0 (.raised []) = ws := by
      show healthCheck cfg ws t = ws
      unfold healthCheck
      rw [if_neg (by have := hall t (List.mem_cons_self _ _); push_neg; linarith)]
    simp only [runFailRaise, hstep]
    exact ih ws (fun t' ht' => hall t' (List.mem_cons_of_mem _ ht'))

/-- C7: failure-triggered recovery is gated by the elapsed time since the
last successful parse (or reset): a failing cycle resets the engine
exactly when that elapsed time exceeds engine_reset_after_fail_s, a reset
restarts the window at the reset time, a failing cycle inside the window
changes nothing, a whole failing run inside the window performs no reset
at all, and a successful cycle restarts the window at its cycle time. -/
theorem C7_reset_once_per_window :
    (∀ (cfg : ClockCfg) (ws : WorkerState) (now obsWall : ℚ) (io : CycleOutcome),
      cycleParsed ws io = none →
        ((workerCycle cfg ws now obsWall io).engine_resets = ws.engine_resets + 1 ↔
          cfg.engine_reset_after_fail_s < now - ws.last_parse_ok_mono) ∧
        (cfg.engine_reset_after_fail_s < now - ws.last_parse_ok_mono →
          (workerCycle cfg ws now obsWall io).last_parse_ok_mono = now) ∧
        (¬ cfg.engine_reset_after_fail_s < now - ws.last_parse_ok_mono →
          (workerCycle cfg ws now obsWall io).last_parse_ok_mono = ws.last_parse_ok_mono ∧
          (workerCycle cfg ws now obsWall io).engine_resets = ws.engine_resets)) ∧
    (∀ (cfg : ClockCfg) (ws : WorkerState) (times : List ℚ),
      (∀ t ∈ times, t ≤ ws.last_parse_ok_mono + cfg.engine_reset_after_fail_s) →
      runFailRaise cfg ws times = ws) ∧
    (∀ (cfg : ClockCfg) (ws : WorkerState) (now obsWall : ℚ) (io : CycleOutcome) (t : ℤ),
      cycleParsed ws io = some t →
        (workerCycle cfg ws now obsWall io).last_parse_ok_mono = now ∧
        (workerCycle cfg ws now obsWall io).engine_resets = ws.engine_resets) := by
  refine ⟨?_, fun cfg ws times h => runFailRaise_within_window cfg times ws h, ?_⟩
  · intro cfg ws now obsWall io hfail
    have hred : ∀ ws1 : WorkerState, ws1.engine_resets = ws.engine_resets →
        ws1.last_parse_ok_mono = ws.last_parse_ok_mono →
        ((healthCheck cfg ws1 now).engine_resets = ws.engine_resets + 1 ↔
          cfg.engine_reset_after_fail_s < now - ws.last_parse_ok_mono) ∧
        (cfg.engine_reset_after_fail_s < now - ws.last_parse_ok_mono →
          (healthCheck cfg ws1 now).last_parse_ok_mono = now) ∧
        (¬ cfg.engine_reset_after_fail_s < now - ws.last_parse_ok_mono →
          (healthCheck cfg ws1 now).last_parse_ok_mono = ws.last_parse_ok_mono ∧
          (healthCheck cfg ws1 now).engine_resets = ws.engine_resets) := by
      intro ws1 hres hok
      unfold healthCheck
      rw [hok]
      split_ifs with hc
      · exact ⟨by simp [hres, hc], fun _ => rfl, fun hn => absurd hc hn⟩
      · refine ⟨?_, fun hp => absurd hp hc, fun _ => ⟨hok, hres⟩⟩
        rw [hres]
        simp only [Nat.succ_ne_self, self_eq_add_right, OfNat.ofNat_ne_zero, false_iff]
        exact hc
    rcases io with okTexts | results
    · exact hred _ rfl rfl
    · unfold cycleParsed at hfail
      dsimp only at hfail
      unfold workerCycle
      dsimp only
      simp only [hfail]
      exact hred _ rfl rfl
  · intro cfg ws now obsWall io t hsucc
    rcases io with okTexts | results
    · exact absurd hsucc (by simp [cycleParsed])
    · unfold cycleParsed at hsucc
      dsimp only at hsucc
      unfold workerCycle
      dsimp only
      simp only [hsucc]
      exact ⟨trivial, trivial⟩

/-- Witness for C7 at the default configuration: a failing cycle 25 seconds
after the last success resets (25 above the 20 second window), a failing
run at 1, 5, 19 seconds performs no reset, and a successful parse restarts
the window. -/
theorem C7_witness :
    ((workerCycle defaultClockCfg ⟨none, 0, "", none, 0, 0⟩ 25 0
        (.raised [])).engine_resets = 0 + 1 ↔
      defaultClockCfg.engine_reset_after_fail_s < 25 - 0) ∧
    runFailRaise defaultClockCfg ⟨none, 0, "", none, 0, 0⟩ [1, 5, 19]
      = ⟨none, 0, "", none, 0, 0⟩ ∧
    (workerCycle defaultClockCfg ⟨none, 0, "", none, 0, 0⟩ 3 3
      (.completed [((8, 70, 80, 0), "1:40")])).last_parse_ok_mono = 3 :=
  ⟨(C7_reset_once_per_window.1 defaultClockCfg ⟨none, 0, "", none, 0, 0⟩ 25 0
      (.raised []) (by decide)).1,
   C7_reset_once_per_window.2.1 defaultClockCfg ⟨none, 0, "", none, 0, 0⟩ [1, 5, 19]
     (by intro t ht; simp at ht; rcases ht with rfl | rfl | rfl <;> norm_num [defaultClockCfg]),
   (C7_reset_once_per_window.2.2 defaultClockCfg ⟨none, 0, "", none, 0, 0⟩ 3 3
      (.completed [((8, 70, 80, 0), "1:40")]) 100 (by decide)).1⟩

theorem shrinkGap_step_natAbs (x : ℤ) :
    (x - clampCorr 1 x).natAbs = x.natAbs - 1 := by
  unfold clampCorr
  omega

theorem shrinkGap_natAbs (n : ℕ) (g : ℤ) :
    (shrinkGap n g).natAbs = g.natAbs - n := by
  induction n with
  | zero => simp [shrinkGap]
  | succ k ih =>
    unfold shrinkGap
    rw [shrinkGap_step_natAbs, ih]
    omega

theorem shrinkGap_eq_zero {n : ℕ} {g : ℤ} (h : g.natAbs ≤ n) : shrinkGap n g = 0 := by
  have h1 := shrinkGap_natAbs n g
  have h2 : (shrinkGap n g).natAbs = 0 := by omega
  exact Int.natAbs_eq_zero.mp h2

theorem shrinkGap_compose (n : ℕ) (g : ℤ) :
    shrinkGap (n + 1) g = shrinkGap n (shrinkGap 1 g) := by
  induction n with
  | zero => rfl
  | succ k ih =>
    show shrinkGap (k + 1) g - clampCorr 1 (shrinkGap (k + 1) g) = _
    rw [ih]
    rfl

theorem tickCatchUp_fst_ge (tp : ℚ) (d : ℤ) (next now : ℚ) (htp : 0 < tp)
    (h : next ≤ now) : d + 1 ≤ (tickCatchUp tp d next now).1 := by
  unfold tickCatchUp
  rw [if_pos h]
  have h0 : (0 : ℤ) ≤ ⌊(now - next) / tp⌋ :=
    Int.floor_nonneg.mpr (div_nonneg (by linarith) htp.le)
  dsimp only
  omega

theorem freshUpdate_fst_ge (cfg : ClockCfg) (tp : ℚ) (est d : ℤ) (next now : ℚ)
    (htp : 0 < tp) (hnx : next ≤ now) (hM : cfg.max_correction_per_tick_s ≤ 1) :
    d ≤ (freshUpdate cfg tp est d next now).1 := by
  unfold freshUpdate
  dsimp only
  have hc := tickCatchUp_fst_ge tp d next now htp hnx
  split_ifs with hd
  · have h1 : -cfg.max_correction_per_tick_s ≤
        clampCorr cfg.max_correction_per_tick_s (est - (tickCatchUp tp d next now).1) :=
      le_max_left _ _
    omega
  · omega

/-- Exhaustive description of one display_time call: either the blank
result with unchanged state, or a numeric result displaying the stored new
display value; in the numeric case the observation fields are untouched
and, whenever the call happens at or after the pending tick deadline and
the correction bound is at most 1, the display value does not decrease. -/
theorem displayTime_spec (cfg : ClockCfg) (st : ClockState) (now : ℚ)
    (hg : cfg.dropout_grace_s < 999999) :
    ((displayTime cfg st now).1 = (none, "--:--") ∧ (displayTime cfg st now).2 = st) ∨
    (∃ d', (displayTime cfg st now).1 = showResult cfg d' ∧
      (displayTime cfg st now).2.disp_s = some d' ∧
      (displayTime cfg st now).2.last_observed_s = st.last_observed_s ∧
      (displayTime cfg st now).2.last_observed_wall_mono = st.last_observed_wall_mono ∧
      (∀ d0, st.disp_s = some d0 → st.disp_next_tick_mono ≤ now →
        cfg.max_correction_per_tick_s ≤ 1 → d0 ≤ d')) := by
  obtain ⟨obs, wall, dsp, nx⟩ := st
  have htp : (0 : ℚ) < 1 / max (1 / 100) cfg.game_speed_multiplier := by positivity
  rcases obs with _ | s
  · rcases dsp with _ | d0
    · exact Or.inl ⟨rfl, rfl⟩
    · unfold displayTime
      dsimp only
      rw [if_pos hg]
      split_ifs with h2
      · exact Or.inl ⟨rfl, rfl⟩
      · right
        refine ⟨(tickCatchUp (1 / max (1 / 100) cfg.game_speed_multiplier) d0 nx now).1,
          rfl, rfl, rfl, rfl, ?_⟩
        intro dd hdd hnx hM
        injection hdd with h
        subst h
        have := tickCatchUp_fst_ge (1 / max (1 / 100) cfg.game_speed_multiplier) d0 nx now htp hnx
        omega
  · rcases dsp with _ | d0
    · unfold displayTime
      dsimp only
      split_ifs with h1
      · exact Or.inl ⟨rfl, rfl⟩
      · right
        refine ⟨s + pyInt ((now - wall) * cfg.game_speed_multiplier), rfl, rfl, rfl, rfl, ?_⟩
        intro dd hdd
        exact absurd hdd (by simp)
    · unfold displayTime
      dsimp only
      split_ifs with h1 h2
      · exact Or.inl ⟨rfl, rfl⟩
      · right
        refine ⟨(tickCatchUp (1 / max (1 / 100) cfg.game_speed_multiplier) d0 nx now).1,
          rfl, rfl, rfl, rfl, ?_⟩
        intro dd hdd hnx hM
        injection hdd with h
        subst h
        have := tickCatchUp_fst_ge (1 / max (1 / 100) cfg.game_speed_multiplier) d0 nx now htp hnx
        omega
      · right
        refine ⟨(freshUpdate cfg (1 / max (1 / 100) cfg.game_speed_multiplier)
            (s + pyInt ((now - wall) * cfg.game_speed_multiplier)) d0 nx now).1,
          rfl, rfl, rfl, rfl, ?_⟩
        intro dd hdd hnx hM
        injection hdd with h
        subst h
        exact freshUpdate_fst_ge cfg (1 / max (1 / 100) cfg.game_speed_multiplier)
          (s + pyInt ((now - wall) * cfg.game_speed_multiplier)) d0 nx now htp hnx hM

/-- C10: display_time returns the blank pair or a numeric pair; the numeric
value is non-negative, equals the stored display value plus the offset
clamped at zero, and is formatted as zero-padded minutes and seconds; the
numeric component is absent exactly when the string is the blank marker.
The hypothesis excludes configurations with a dropout grace of 999999
seconds or more, where the Python call can raise its assert instead of
returning. -/
theorem C10_return_shape (cfg : ClockCfg) (st : ClockState) (now : ℚ)
    (hg : cfg.dropout_grace_s < 999999) :
    ((displayTime cfg st now).1.1 = none ↔ (displayTime cfg st now).1.2 = "--:--") ∧
    (∀ n, (displayTime cfg st now).1.1 = some n →
      0 ≤ n ∧
      (∃ d, (displayTime cfg st now).2.disp_s = some d ∧
        n = max 0 (d + cfg.time_offset_s)) ∧
      (displayTime cfg st now).1.2 = fmtMMSS n.toNat) := by
  rcases displayTime_spec cfg st now hg with ⟨hb, _⟩ | ⟨d, hshow, hdisp, _, _, _⟩
  · constructor
    · rw [hb]
      simp
    · intro n hn
      rw [hb] at hn
      exact absurd hn (by simp)
  · have h1 : (displayTime cfg st now).1.1 = some (max 0 (d + cfg.time_offset_s)) := by
      rw [hshow]; rfl
    have h2 : (displayTime cfg st now).1.2
        = fmtMMSS (max 0 (d + cfg.time_offset_s)).toNat := by
      rw [hshow]; rfl
    constructor
    · constructor
      · intro h
        rw [h1] at h
        exact absurd h (by simp)
      · intro h
        rw [h2] at h
        exact absurd h (fmtMMSS_ne_blank _)
    · intro n hn
      rw [h1] at hn
      injection hn with hn'
      subst hn'
      exact ⟨le_max_left _ _, ⟨d, hdisp, rfl⟩, h2⟩

/-- Witness for C10 at the default configuration with one observation. -/
theorem C10_witness :
    ((displayTime defaultClockCfg ⟨some 90, 0, none, 0⟩ 0).1.1 = none ↔
      (displayTime defaultClockCfg ⟨some 90, 0, none, 0⟩ 0).1.2 = "--:--") ∧
    (∀ n, (displayTime defaultClockCfg ⟨some 90, 0, none, 0⟩ 0).1.1 = some n →
      0 ≤ n ∧
      (∃ d, (displayTime defaultClockCfg ⟨some 90, 0, none, 0⟩ 0).2.disp_s = some d ∧
        n = max 0 (d + defaultClockCfg.time_offset_s)) ∧
      (displayTime defaultClockCfg ⟨some 90, 0, none, 0⟩ 0).1.2 = fmtMMSS n.toNat) :=
  C10_return_shape defaultClockCfg ⟨some 90, 0, none, 0⟩ 0 (by norm_num [defaultClockCfg])

/-- C3 counterexample: after an observation of 90 at time 0, a first call
at time 15 (staleness 15, within dropout_grace + holdover = 610) returns
the blank result, because no display value exists yet, refuting the claim
that every staleness within dropout_grace + holdover after an observation
yields a numeric value. -/
theorem C3_counterexample :
    (displayTime defaultClockCfg ⟨some 90, 0, none, 0⟩ 15).1 = (none, "--:--") ∧
    (⟨some 90, 0, none, 0⟩ : ClockState).last_observed_s = some 90 ∧
    (15 : ℚ) - 0 ≤ defaultClockCfg.dropout_grace_s + defaultClockCfg.holdover_s := by
  refine ⟨?_, rfl, by norm_num [defaultClockCfg]⟩
  norm_num [displayTime, defaultClockCfg]

/-- C3 (amended): display_time is blank exactly when no observation has
ever arrived, or the observation is stale beyond dropout_grace while no
display value exists yet, or staleness exceeds dropout_grace + holdover.
In particular a numeric value is returned for every staleness within
dropout_grace, and for every staleness within dropout_grace + holdover
when a display value already exists. -/
theorem C3_blank_iff (cfg : ClockCfg) (st : ClockState) (now : ℚ)
    (hh : 0 ≤ cfg.holdover_s) (hgh : cfg.dropout_grace_s + cfg.holdover_s < 999999) :
    (displayTime cfg st now).1.1 = none ↔
      (st.last_observed_s = none ∨
       (st.disp_s = none ∧ cfg.dropout_grace_s < now - st.last_observed_wall_mono) ∨
       cfg.dropout_grace_s + cfg.holdover_s < now - st.last_observed_wall_mono) := by
  have hg : cfg.dropout_grace_s < 999999 := by linarith
  obtain ⟨obs, wall, dsp, nx⟩ := st
  rcases obs with _ | s
  · rcases dsp with _ | d0
    · simp [displayTime]
    · unfold displayTime
      dsimp only
      rw [if_pos hg, if_pos hgh]
      simp
  · rcases dsp with _ | d0
    · unfold displayTime
      dsimp only
      split_ifs with h1
      · simp [h1]
      · constructor
        · intro habs
          exact absurd habs (by simp [showResult])
        · rintro (h | ⟨_, hmid⟩ | hthird)
          · exact absurd h (by simp)
          · exact absurd hmid h1
          · push_neg at h1
            exact absurd hthird (by push_neg; linarith)
    · unfold displayTime
      dsimp only
      split_ifs with h1 h2
      · simp [h2]
      · constructor
        · intro habs
          exact absurd habs (by simp [holdoverResult, showResult])
        · rintro (h | ⟨hd, _⟩ | h3)
          · exact absurd h (by simp)
          · exact absurd hd (by simp)
          · exact absurd h3 h2
      · constructor
        · intro habs
          exact absurd habs (by simp [showResult])
        · rintro (h | ⟨hd, _⟩ | h3)
          · exact absurd h (by simp)
          · exact absurd hd (by simp)
          · push_neg at h1
            exact absurd h3 (by push_neg; linarith)

/-- Witness for C3 (amended) at the default configuration. -/
theorem C3_witness :
    (displayTime defaultClockCfg ⟨some 90, 0, some 90, 1⟩ 5).1.1 = none ↔
      ((⟨some 90, 0, some 90, 1⟩ : ClockState).last_observed_s = none ∨
       ((⟨some 90, 0, some 90, 1⟩ : ClockState).disp_s = none ∧
        defaultClockCfg.dropout_grace_s <
          5 - (⟨some 90, 0, some 90, 1⟩ : ClockState).last_observed_wall_mono) ∨
       defaultClockCfg.dropout_grace_s + defaultClockCfg.holdover_s <
         5 - (⟨some 90, 0, some 90, 1⟩ : ClockState).last_observed_wall_mono) :=
  C3_blank_iff defaultClockCfg ⟨some 90, 0, some 90, 1⟩ 5
    (by norm_num [defaultClockCfg]) (by norm_num [defaultClockCfg])

/-- C2 counterexample: starting from the initial state, the worker observes
50 at time 0, a call at 0 initializes the display; the worker then
observes 10 (an OCR value jump downward) at time 1/100; two successive
calls at 1/10 and 2/10, both within one tick period, both return numeric
values, 50 and then 49: the displayed value decreases, refuting
monotonicity of successive returned values. -/
theorem C2_counterexample :
    (displayTime defaultClockCfg
      (observeUpdate (displayTime defaultClockCfg (observeUpdate initClockState 50 0) 0).2
        10 (1 / 100)) (1 / 10)).1.1 = some 50 ∧
    (displayTime defaultClockCfg
      (displayTime defaultClockCfg
        (observeUpdate (displayTime defaultClockCfg (observeUpdate initClockState 50 0) 0).2
          10 (1 / 100)) (1 / 10)).2 (2 / 10)).1.1 = some 49 ∧
    ¬ (50 : ℤ) ≤ 49 := by
  have e1 : (displayTime defaultClockCfg (observeUpdate initClockState 50 0) 0).2
      = ⟨some 50, 0, some 50, 5 / 7⟩ := by
    norm_num [displayTime, observeUpdate, initClockState, defaultClockCfg, pyInt, showResult]
  rw [e1]
  have e2 : observeUpdate (⟨some 50, 0, some 50, 5 / 7⟩ : ClockState) 10 (1 / 100)
      = ⟨some 10, 1 / 100, some 50, 5 / 7⟩ := rfl
  rw [e2]
  have e3 : displayTime defaultClockCfg (⟨some 10, 1 / 100, some 50, 5 / 7⟩ : ClockState)
      (1 / 10)
      = (showResult defaultClockCfg 49, ⟨some 10, 1 / 100, some 49, 5 / 7⟩) := by
    norm_num [displayTime, defaultClockCfg, pyInt, freshUpdate, tickCatchUp, clampCorr]
  rw [e3]
  have e4 : displayTime defaultClockCfg (⟨some 10, 1 / 100, some 49, 5 / 7⟩ : ClockState)
      (2 / 10)
      = (showResult defaultClockCfg 48, ⟨some 10, 1 / 100, some 48, 5 / 7⟩) := by
    norm_num [displayTime, defaultClockCfg, pyInt, freshUpdate, tickCatchUp, clampCorr]
  rw [e4]
  refine ⟨?_, ?_, by norm_num⟩
  · norm_num [showResult, defaultClockCfg]
  · norm_num [showResult, defaultClockCfg]

/-- C2 (amended): successive numeric values of display_time can decrease
(by up to max_correction_per_tick_s per call) when calls land inside one
tick period while the estimate sits below the display value; the returned
values are non-decreasing whenever the second call occurs at or after the
pending tick deadline left by the first call (with the correction bound at
most 1, as in the default configuration), with the in-between state
touched only through worker observation updates. -/
theorem C2_monotone_when_tick_spaced (cfg : ClockCfg) (st : ClockState)
    (now1 now2 : ℚ) (stMid : ClockState) (v1 v2 : ℤ)
    (hg : cfg.dropout_grace_s < 999999)
    (hM : cfg.max_correction_per_tick_s ≤ 1)
    (h1 : (displayTime cfg st now1).1.1 = some v1)
    (hmd : stMid.disp_s = (displayTime cfg st now1).2.disp_s)
    (hmn : stMid.disp_next_tick_mono = (displayTime cfg st now1).2.disp_next_tick_mono)
    (htick : (displayTime cfg st now1).2.disp_next_tick_mono ≤ now2)
    (h2 : (displayTime cfg stMid now2).1.1 = some v2) :
    v1 ≤ v2 := by
  rcases displayTime_spec cfg st now1 hg with ⟨hb, _⟩ | ⟨d1, hshow1, hdisp1, _, _, _⟩
  · have hnone : (displayTime cfg st now1).1.1 = none := by rw [hb]
    rw [hnone] at h1
    exact absurd h1 (by simp)
  · have hv1 : v1 = max 0 (d1 + cfg.time_offset_s) := by
      have hx : (displayTime cfg st now1).1.1 = some (max 0 (d1 + cfg.time_offset_s)) := by
        rw [hshow1]; rfl
      rw [hx] at h1
      exact (Option.some.inj h1).symm
    rcases displayTime_spec cfg stMid now2 hg with ⟨hb2, _⟩ | ⟨d2, hshow2, _, _, _, hmono⟩
    · have hnone : (displayTime cfg stMid now2).1.1 = none := by rw [hb2]
      rw [hnone] at h2
      exact absurd h2 (by simp)
    · have hv2 : v2 = max 0 (d2 + cfg.time_offset_s) := by
        have hx : (displayTime cfg stMid now2).1.1 = some (max 0 (d2 + cfg.time_offset_s)) := by
          rw [hshow2]; rfl
        rw [hx] at h2
        exact (Option.some.inj h2).symm
      have hd12 : d1 ≤ d2 := by
        refine hmono d1 ?_ ?_ hM
        · rw [hmd, hdisp1]
        · rw [hmn]; exact htick
      rw [hv1, hv2]
      exact max_le_max (le_refl 0) (by omega)

/-- Witness for C2 (amended): two tick-spaced calls at the default
configuration return 52 then 53. -/
theorem C2_witness : (52 : ℤ) ≤ 53 := by
  have e1 : displayTime defaultClockCfg (⟨some 50, 0, some 50, 5 / 7⟩ : ClockState) (5 / 7)
      = (showResult defaultClockCfg 51, ⟨some 50, 0, some 51, 10 / 7⟩) := by
    norm_num [displayTime, defaultClockCfg, pyInt, freshUpdate, tickCatchUp, clampCorr]
  have e2 : displayTime defaultClockCfg (⟨some 50, 0, some 51, 10 / 7⟩ : ClockState) (10 / 7)
      = (showResult defaultClockCfg 52, ⟨some 50, 0, some 52, 15 / 7⟩) := by
    norm_num [displayTime, defaultClockCfg, pyInt, freshUpdate, tickCatchUp, clampCorr]
  refine C2_monotone_when_tick_spaced defaultClockCfg ⟨some 50, 0, some 50, 5 / 7⟩
    (5 / 7) (10 / 7) ⟨some 50, 0, some 51, 10 / 7⟩ 52 53
    (by norm_num [defaultClockCfg]) (by norm_num [defaultClockCfg]) ?_ ?_ ?_ ?_ ?_
  · rw [e1]
    norm_num [showResult, defaultClockCfg]
  · rw [e1]
  · rw [e1]
  · rw [e1]
  · rw [e2]
    norm_num [showResult, defaultClockCfg]

theorem clampCorr_one_zero : clampCorr 1 0 = 0 := by decide

/-- One fresh call with speed 1 and correction bound 1, arriving exactly at
the pending tick deadline: catch up one tick, then correct by the clamped
gap; the new display value is the estimate minus the shrunk gap. -/
theorem displayTime_unit_tick (cfg : ClockCfg) (s D : ℤ) (m t : ℚ)
    (hsp : cfg.game_speed_multiplier = 1) (hM : cfg.max_correction_per_tick_s = 1)
    (hm : m ≤ t) (hfresh : t - m ≤ cfg.dropout_grace_s) :
    displayTime cfg ⟨some s, m, some D, t⟩ t =
      (showResult cfg (s + ⌊t - m⌋ - shrinkGap 1 (s + ⌊t - m⌋ - D - 1)),
       ⟨some s, m, some (s + ⌊t - m⌋ - shrinkGap 1 (s + ⌊t - m⌋ - D - 1)), t + 1⟩) := by
  have htp : (1 : ℚ) / max (1 / 100) cfg.game_speed_multiplier = 1 := by
    rw [hsp]; norm_num
  have hest : pyInt ((t - m) * cfg.game_speed_multiplier) = ⌊t - m⌋ := by
    rw [hsp, mul_one]
    unfold pyInt
    rw [if_pos (by linarith)]
  have hcu : tickCatchUp 1 D t t = (D + 1, t + 1) := by
    unfold tickCatchUp
    rw [if_pos (le_refl t)]
    norm_num
  have hval : (if s + ⌊t - m⌋ - (D + 1) ≠ 0 then
        D + 1 + clampCorr 1 (s + ⌊t - m⌋ - (D + 1)) else D + 1)
      = s + ⌊t - m⌋ - shrinkGap 1 (s + ⌊t - m⌋ - D - 1) := by
    have hone : shrinkGap 1 (s + ⌊t - m⌋ - D - 1)
        = (s + ⌊t - m⌋ - D - 1) - clampCorr 1 (s + ⌊t - m⌋ - D - 1) := rfl
    split_ifs with hd
    · rw [hone, show s + ⌊t - m⌋ - (D + 1) = s + ⌊t - m⌋ - D - 1 by ring]
      ring
    · push_neg at hd
      rw [hone, show s + ⌊t - m⌋ - D - 1 = 0 by omega, clampCorr_one_zero]
      omega
  unfold displayTime
  dsimp only
  rw [if_neg (not_lt.mpr hfresh), htp, hest]
  unfold freshUpdate
  rw [hM, hcu]
  dsimp only
  rw [hval]

/-- The very first fresh call on a display value whose tick deadline is one
second ahead: no catch-up, only the clamped correction. -/
theorem displayTime_first_tick (cfg : ClockCfg) (s D : ℤ) (m t : ℚ)
    (hsp : cfg.game_speed_multiplier = 1) (hM : cfg.max_correction_per_tick_s = 1)
    (hm : m ≤ t) (hfresh : t - m ≤ cfg.dropout_grace_s) :
    displayTime cfg ⟨some s, m, some D, t + 1⟩ t =
      (showResult cfg (s + ⌊t - m⌋ - shrinkGap 1 (s + ⌊t - m⌋ - D)),
       ⟨some s, m, some (s + ⌊t - m⌋ - shrinkGap 1 (s + ⌊t - m⌋ - D)), t + 1⟩) := by
  have htp : (1 : ℚ) / max (1 / 100) cfg.game_speed_multiplier = 1 := by
    rw [hsp]; norm_num
  have hest : pyInt ((t - m) * cfg.game_speed_multiplier) = ⌊t - m⌋ := by
    rw [hsp, mul_one]
    unfold pyInt
    rw [if_pos (by linarith)]
  have hcu : tickCatchUp 1 D (t + 1) t = (D, t + 1) := by
    unfold tickCatchUp
    rw [if_neg (by linarith)]
  have hval : (if s + ⌊t - m⌋ - D ≠ 0 then
        D + clampCorr 1 (s + ⌊t - m⌋ - D) else D)
      = s + ⌊t - m⌋ - shrinkGap 1 (s + ⌊t - m⌋ - D) := by
    have hone : shrinkGap 1 (s + ⌊t - m⌋ - D)
        = (s + ⌊t - m⌋ - D) - clampCorr 1 (s + ⌊t - m⌋ - D) := rfl
    split_ifs with hd
    · rw [hone]; ring
    · push_neg at hd
      rw [hone, hd, clampCorr_one_zero]
      omega
  unfold displayTime
  dsimp only
  rw [if_neg (not_lt.mpr hfresh), htp, hest]
  unfold freshUpdate
  rw [hM, hcu]
  dsimp only
  rw [hval]

/-- Repeated display_time calls, one second apart at speed 1, each arriving
at its tick deadline: after k+1 calls the display value is the running
estimate minus the (k+1)-times shrunk initial gap, and the deadline has
advanced k+1 ticks. -/
theorem callsFrom_unit (cfg : ClockCfg) (s : ℤ) (m : ℚ)
    (hsp : cfg.game_speed_multiplier = 1) (hM : cfg.max_correction_per_tick_s = 1) :
    ∀ (k : ℕ) (D : ℤ) (t : ℚ), m ≤ t → t - m + k ≤ cfg.dropout_grace_s →
      callsFrom cfg (k + 1) ⟨some s, m, some D, t⟩ t =
        ⟨some s, m, some (s + ⌊t - m⌋ + k - shrinkGap (k + 1) (s + ⌊t - m⌋ - D - 1)),
         t + (k + 1)⟩ := by
  intro k
  induction k with
  | zero =>
    intro D t hm hf
    show (displayTime cfg ⟨some s, m, some D, t⟩ t).2 = _
    rw [displayTime_unit_tick cfg s D m t hsp hM hm (by push_cast at hf; linarith)]
    norm_num
  | succ k ih =>
    intro D t hm hf
    have hk : (0 : ℚ) ≤ (k : ℚ) := Nat.cast_nonneg k
    show callsFrom cfg (k + 1) (displayTime cfg ⟨some s, m, some D, t⟩ t).2 (t + 1) = _
    rw [displayTime_unit_tick cfg s D m t hsp hM hm (by push_cast at hf; linarith)]
    rw [ih (s + ⌊t - m⌋ - shrinkGap 1 (s + ⌊t - m⌋ - D - 1)) (t + 1) (by linarith)
      (by push_cast at hf ⊢; linarith)]
    have hfl : ⌊t + 1 - m⌋ = ⌊t - m⌋ + 1 := by
      rw [show t + 1 - m = (t - m) + 1 by ring, Int.floor_add_one]
    simp only [ClockState.mk.injEq]
    refine ⟨trivial, trivial, ?_, by push_cast; ring_nf⟩
    rw [hfl]
    rw [show s + (⌊t - m⌋ + 1) - (s + ⌊t - m⌋ - shrinkGap 1 (s + ⌊t - m⌋ - D - 1)) - 1
      = shrinkGap 1 (s + ⌊t - m⌋ - D - 1) by ring]
    rw [← shrinkGap_compose (k + 1) (s + ⌊t - m⌋ - D - 1)]
    push_cast
    ring_nf

/-- C1 counterexample: with speed 1 and max_correction_per_tick_s = 1, two
calls at times 1/2 and 1, both strictly before the pending tick deadline 2
(so within a single tick period), each nudge the display value by 1 toward
the estimate: the display moves from 90 to 92 with no tick elapsed,
exceeding the claimed bound of max_correction_per_tick_s per tick — the
correction is applied per call, not per tick. -/
theorem C1_counterexample :
    (displayTime ⟨1, 0, 10, 10, 600, 1, 20⟩ ⟨some 99, 0, some 90, 2⟩ (1 / 2)).2
      = ⟨some 99, 0, some 91, 2⟩ ∧
    (displayTime ⟨1, 0, 10, 10, 600, 1, 20⟩ ⟨some 99, 0, some 91, 2⟩ 1).2
      = ⟨some 99, 0, some 92, 2⟩ ∧
    (1 / 2 : ℚ) < 2 ∧ (1 : ℚ) < 2 ∧
    ¬ ((92 : ℤ) - 90 ≤ (⟨1, 0, 10, 10, 600, 1, 20⟩ : ClockCfg).max_correction_per_tick_s) := by
  refine ⟨?_, ?_, by norm_num, by norm_num, by norm_num⟩
  · norm_num [displayTime, pyInt, freshUpdate, tickCatchUp, clampCorr]
  · norm_num [displayTime, pyInt, freshUpdate, tickCatchUp, clampCorr]

/-- C1 (amended): in the Fresh regime the display value is nudged toward
the estimate by at most max_correction_per_tick_s per call (not per tick):
each call first catches up whole elapsed tick periods and then moves the
display toward the estimate by the clamped gap, shrinking the distance to
the estimate by exactly min(gap, max_correction) of it.  With speed 1 and
max correction 1 and one call per one-second tick, the display value
changes by at least 0 and at most 2 between consecutive ticks, and it
reaches the running estimate within |estimate - display| ticks. -/
theorem C1_bounded_correction :
    (∀ (cfg : ClockCfg) (s d : ℤ) (wall nx now : ℚ),
      0 ≤ cfg.max_correction_per_tick_s →
      ¬ cfg.dropout_grace_s < now - wall →
      ∃ d2,
        (displayTime cfg ⟨some s, wall, some d, nx⟩ now).2.disp_s = some d2 ∧
        d2 = (freshUpdate cfg (1 / max (1 / 100) cfg.game_speed_multiplier)
          (s + pyInt ((now - wall) * cfg.game_speed_multiplier)) d nx now).1 ∧
        |d2 - (tickCatchUp (1 / max (1 / 100) cfg.game_speed_multiplier) d nx now).1|
          ≤ cfg.max_correction_per_tick_s ∧
        |s + pyInt ((now - wall) * cfg.game_speed_multiplier) - d2|
          = max (|s + pyInt ((now - wall) * cfg.game_speed_multiplier)
              - (tickCatchUp (1 / max (1 / 100) cfg.game_speed_multiplier) d nx now).1|
              - cfg.max_correction_per_tick_s) 0) ∧
    (∀ (cfg : ClockCfg) (s D : ℤ) (m t : ℚ),
      cfg.game_speed_multiplier = 1 → cfg.max_correction_per_tick_s = 1 →
      m ≤ t → t - m ≤ cfg.dropout_grace_s →
      ∃ D2, (displayTime cfg ⟨some s, m, some D, t⟩ t).2.disp_s = some D2 ∧
        D ≤ D2 ∧ D2 ≤ D + 2) ∧
    (∀ (cfg : ClockCfg) (s d0 : ℤ) (m t0 : ℚ) (n : ℕ),
      cfg.game_speed_multiplier = 1 → cfg.max_correction_per_tick_s = 1 →
      m ≤ t0 → (s + ⌊t0 - m⌋ - d0).natAbs ≤ n + 1 →
      t0 - m + n ≤ cfg.dropout_grace_s →
      (callsFrom cfg (n + 1) ⟨some s, m, some d0, t0 + 1⟩ t0).disp_s
        = some (s + ⌊t0 - m⌋ + n)) := by
  refine ⟨?_, ?_, ?_⟩
  · intro cfg s d wall nx now hM hfresh
    refine ⟨(freshUpdate cfg (1 / max (1 / 100) cfg.game_speed_multiplier)
      (s + pyInt ((now - wall) * cfg.game_speed_multiplier)) d nx now).1, ?_, rfl, ?_, ?_⟩
    · unfold displayTime
      dsimp only
      rw [if_neg hfresh]
    · unfold freshUpdate
      dsimp only
      split_ifs with hd
      · rw [show (tickCatchUp (1 / max (1 / 100) cfg.game_speed_multiplier) d nx now).1
            + clampCorr cfg.max_correction_per_tick_s
              (s + pyInt ((now - wall) * cfg.game_speed_multiplier)
                - (tickCatchUp (1 / max (1 / 100) cfg.game_speed_multiplier) d nx now).1)
            - (tickCatchUp (1 / max (1 / 100) cfg.game_speed_multiplier) d nx now).1
            = clampCorr cfg.max_correction_per_tick_s
              (s + pyInt ((now - wall) * cfg.game_speed_multiplier)
                - (tickCatchUp (1 / max (1 / 100) cfg.game_speed_multiplier) d nx now).1)
          by ring]
        rw [abs_le]
        unfold clampCorr
        omega
      · rw [sub_self, abs_zero]
        exact hM
    · unfold freshUpdate
      dsimp only
      split_ifs with hd
      · rw [show s + pyInt ((now - wall) * cfg.game_speed_multiplier)
            - ((tickCatchUp (1 / max (1 / 100) cfg.game_speed_multiplier) d nx now).1
              + clampCorr cfg.max_correction_per_tick_s
                (s + pyInt ((now - wall) * cfg.game_speed_multiplier)
                  - (tickCatchUp (1 / max (1 / 100) cfg.game_speed_multiplier) d nx now).1))
            = (s + pyInt ((now - wall) * cfg.game_speed_multiplier)
                - (tickCatchUp (1 / max (1 / 100) cfg.game_speed_multiplier) d nx now).1)
              - clampCorr cfg.max_correction_per_tick_s
                (s + pyInt ((now - wall) * cfg.game_speed_multiplier)
                  - (tickCatchUp (1 / max (1 / 100) cfg.game_speed_multiplier) d nx now).1)
          by ring]
        rcases abs_cases ((s + pyInt ((now - wall) * cfg.game_speed_multiplier)
            - (tickCatchUp (1 / max (1 / 100) cfg.game_speed_multiplier) d nx now).1)
            - clampCorr cfg.max_correction_per_tick_s
              (s + pyInt ((now - wall) * cfg.game_speed_multiplier)
                - (tickCatchUp (1 / max (1 / 100) cfg.game_speed_multiplier) d nx now).1))
          with ⟨h1, h2⟩ | ⟨h1, h2⟩ <;>
        rcases abs_cases (s + pyInt ((now - wall) * cfg.game_speed_multiplier)
            - (tickCatchUp (1 / max (1 / 100) cfg.game_speed_multiplier) d nx now).1)
          with ⟨h3, h4⟩ | ⟨h3, h4⟩ <;>
        unfold clampCorr at * <;> omega
      · push_neg at hd
        rw [hd]
        simp only [abs_zero]
        omega
  · intro cfg s D m t hsp hM hm hf
    rw [displayTime_unit_tick cfg s D m t hsp hM hm hf]
    refine ⟨s + ⌊t - m⌋ - shrinkGap 1 (s + ⌊t - m⌋ - D - 1), rfl, ?_, ?_⟩
    · have hone : shrinkGap 1 (s + ⌊t - m⌋ - D - 1)
          = (s + ⌊t - m⌋ - D - 1) - clampCorr 1 (s + ⌊t - m⌋ - D - 1) := rfl
      rw [hone]
      unfold clampCorr
      omega
    · have hone : shrinkGap 1 (s + ⌊t - m⌋ - D - 1)
          = (s + ⌊t - m⌋ - D - 1) - clampCorr 1 (s + ⌊t - m⌋ - D - 1) := rfl
      rw [hone]
      unfold clampCorr
      omega
  · intro cfg s d0 m t0 n hsp hM hm hK hf
    cases n with
    | zero =>
      show (displayTime cfg ⟨some s, m, some d0, t0 + 1⟩ t0).2.disp_s = _
      rw [displayTime_first_tick cfg s d0 m t0 hsp hM hm (by push_cast at hf; linarith)]
      rw [shrinkGap_eq_zero hK]
      norm_num
    | succ k =>
      have hk : (0 : ℚ) ≤ (k : ℚ) := Nat.cast_nonneg k
      show (callsFrom cfg (k + 1)
        (displayTime cfg ⟨some s, m, some d0, t0 + 1⟩ t0).2 (t0 + 1)).disp_s = _
      rw [displayTime_first_tick cfg s d0 m t0 hsp hM hm (by push_cast at hf; linarith)]
      rw [callsFrom_unit cfg s m hsp hM k
        (s + ⌊t0 - m⌋ - shrinkGap 1 (s + ⌊t0 - m⌋ - d0)) (t0 + 1) (by linarith)
        (by push_cast at hf ⊢; linarith)]
      have hfl : ⌊t0 + 1 - m⌋ = ⌊t0 - m⌋ + 1 := by
        rw [show t0 + 1 - m = (t0 - m) + 1 by ring, Int.floor_add_one]
      dsimp only
      congr 1
      rw [hfl]
      rw [show s + (⌊t0 - m⌋ + 1) - (s + ⌊t0 - m⌋ - shrinkGap 1 (s + ⌊t0 - m⌋ - d0)) - 1
        = shrinkGap 1 (s + ⌊t0 - m⌋ - d0) by ring]
      rw [← shrinkGap_compose (k + 1) (s + ⌊t0 - m⌋ - d0)]
      rw [shrinkGap_eq_zero hK]
      push_cast
      ring_nf

/-- Witness for C1 (amended) at concrete fresh-regime calls. -/
theorem C1_witness :
    (∃ d2,
      (displayTime defaultClockCfg ⟨some 99, 0, some 90, 2⟩ (1 / 2)).2.disp_s = some d2 ∧
      d2 = (freshUpdate defaultClockCfg
        (1 / max (1 / 100) defaultClockCfg.game_speed_multiplier)
        (99 + pyInt ((1 / 2 - 0) * defaultClockCfg.game_speed_multiplier)) 90 2 (1 / 2)).1 ∧
      |d2 - (tickCatchUp (1 / max (1 / 100) defaultClockCfg.game_speed_multiplier)
          90 2 (1 / 2)).1| ≤ defaultClockCfg.max_correction_per_tick_s ∧
      |99 + pyInt ((1 / 2 - 0) * defaultClockCfg.game_speed_multiplier) - d2|
        = max (|99 + pyInt ((1 / 2 - 0) * defaultClockCfg.game_speed_multiplier)
            - (tickCatchUp (1 / max (1 / 100) defaultClockCfg.game_speed_multiplier)
                90 2 (1 / 2)).1|
            - defaultClockCfg.max_correction_per_tick_s) 0) ∧
    (∃ D2,
      (displayTime ⟨1, 0, 10, 10, 600, 1, 20⟩ ⟨some 99, 0, some 90, 1⟩ 1).2.disp_s = some D2 ∧
      90 ≤ D2 ∧ D2 ≤ 90 + 2) ∧
    (callsFrom ⟨1, 0, 10, 10, 600, 1, 20⟩ (4 + 1) ⟨some 99, 0, some 95, 1 + 1⟩ 1).disp_s
      = some (99 + ⌊(1 : ℚ) - 0⌋ + 4) :=
  ⟨C1_bounded_correction.1 defaultClockCfg 99 90 0 2 (1 / 2)
      (by norm_num [defaultClockCfg]) (by norm_num [defaultClockCfg]),
   C1_bounded_correction.2.1 ⟨1, 0, 10, 10, 600, 1, 20⟩ 99 90 0 1 rfl rfl
      (by norm_num) (by norm_num),
   C1_bounded_correction.2.2 ⟨1, 0, 10, 10, 600, 1, 20⟩ 99 95 0 1 4 rfl rfl
      (by norm_num) (by norm_num) (by norm_num)⟩
